import Mathlib

/-!
Shallow embedding of the real-time voice session code of
`src/services/audioUtils.ts` and the `LiveChatService` class of
`src/services/geminiService.ts`, together with theorems checking the
specification's claims about that code.

Conventions: JavaScript numbers (audio clock values, float samples) are
modelled as rationals; byte arrays and binary strings are lists of `Nat`
(each below 256); the browser primitives `btoa`/`atob` and the
`Int16Array` conversion are modelled per their platform semantics.
-/

namespace AudioUtils

/-- Base64 alphabet of the platform `btoa`: maps a sextet (0..63) to the
ASCII code of its base64 character. -/
def b64Char (s : Nat) : Nat :=
  if s < 26 then s + 65
  else if s < 52 then s + 71
  else if s < 62 then s - 4
  else if s = 62 then 43
  else 47

/-- Inverse base64 alphabet of the platform `atob`: ASCII code back to a
sextet, `none` for a character outside the alphabet (`atob` throws there). -/
def b64Val (c : Nat) : Option Nat :=
  if 65 ≤ c ∧ c ≤ 90 then some (c - 65)
  else if 97 ≤ c ∧ c ≤ 122 then some (c - 71)
  else if 48 ≤ c ∧ c ≤ 57 then some (c + 4)
  else if c = 43 then some 62
  else if c = 47 then some 63
  else none

/-- Model of the browser `btoa` on a binary string (list of character
codes): each group of three bytes becomes four base64 characters; a final
group of one or two bytes is `=`-padded (`=` is code 61). -/
def btoaModel : List Nat → List Nat
  | [] => []
  | [b0] => [b64Char (b0 / 4), b64Char (b0 % 4 * 16), 61, 61]
  | [b0, b1] =>
      [b64Char (b0 / 4), b64Char (b0 % 4 * 16 + b1 / 16), b64Char (b1 % 16 * 4), 61]
  | b0 :: b1 :: b2 :: rest =>
      b64Char (b0 / 4) :: b64Char (b0 % 4 * 16 + b1 / 16) ::
      b64Char (b1 % 16 * 4 + b2 / 64) :: b64Char (b2 % 64) :: btoaModel rest

/-- Model of the browser `atob`: each group of four base64 characters yields
three bytes; the final group may be shorter or `=`-padded; a character
outside the alphabet fails the whole decode (`atob` throws). -/
def atobModel : List Nat → Option (List Nat)
  | [] => some []
  | [_] => none
  | [c0, c1] => do
      let s0 ← b64Val c0
      let s1 ← b64Val c1
      some [s0 * 4 + s1 / 16]
  | [c0, c1, c2] => do
      let s0 ← b64Val c0
      let s1 ← b64Val c1
      let s2 ← b64Val c2
      some [s0 * 4 + s1 / 16, s1 % 16 * 16 + s2 / 4]
  | [c0, c1, c2, c3] =>
      if c2 = 61 ∧ c3 = 61 then do
        let s0 ← b64Val c0
        let s1 ← b64Val c1
        some [s0 * 4 + s1 / 16]
      else if c3 = 61 then do
        let s0 ← b64Val c0
        let s1 ← b64Val c1
        let s2 ← b64Val c2
        some [s0 * 4 + s1 / 16, s1 % 16 * 16 + s2 / 4]
      else do
        let s0 ← b64Val c0
        let s1 ← b64Val c1
        let s2 ← b64Val c2
        let s3 ← b64Val c3
        some [s0 * 4 + s1 / 16, s1 % 16 * 16 + s2 / 4, s2 % 4 * 64 + s3]
  | c0 :: c1 :: c2 :: c3 :: rest => do
      let s0 ← b64Val c0
      let s1 ← b64Val c1
      let s2 ← b64Val c2
      let s3 ← b64Val c3
      let bs ← atobModel rest
      some ((s0 * 4 + s1 / 16) :: (s1 % 16 * 16 + s2 / 4) :: (s2 % 4 * 64 + s3) :: bs)

/-- `encode` (src/services/audioUtils.ts lines 53-60): builds the binary
string whose character `i` is byte `i` and applies `btoa`; since a binary
string is modelled as its list of character codes, this is `btoaModel`. -/
def encode (bytes : List Nat) : List Nat := btoaModel bytes

/-- `decode` (src/services/audioUtils.ts lines 11-19): applies `atob` and
reads the character codes of the result back as bytes; `none` models the
`atob` throw on malformed input. -/
def decode (base64 : List Nat) : Option (List Nat) := atobModel base64

/-- Signed 16-bit reinterpretation of a natural number, as reading an
`Int16Array` element does. -/
def asInt16 (n : Nat) : Int :=
  if n % 65536 < 32768 then (n % 65536 : Int) else (n % 65536 : Int) - 65536

/-- The `Int16Array` view of a byte buffer (little-endian byte pairs),
as `new Int16Array(data.buffer)` produces on web platforms. -/
def toInt16List : List Nat → List Int
  | b0 :: b1 :: rest => asInt16 (b0 + 256 * b1) :: toInt16List rest
  | _ => []

/-- Failure of `decodeAudioData` (src/services/audioUtils.ts lines 29-46):
`new Int16Array(data.buffer)` throws a `RangeError` when the byte length is
not a multiple of 2, and `ctx.createBuffer` throws when the frame count is
not a positive integer. -/
inductive DecodeError where
  | byteLengthNotMultipleOfStride
  | invalidFrameCount
deriving DecidableEq

/-- A decoded `AudioBuffer`: per-channel normalized float samples. -/
structure AudioBufferModel where
  numChannels : Nat
  frameCount : Nat
  sampleRate : ℚ
  channelData : List (List ℚ)
deriving DecidableEq

/-- `AudioBuffer.duration` = frame count / sample rate. -/
def AudioBufferModel.duration (b : AudioBufferModel) : ℚ :=
  (b.frameCount : ℚ) / b.sampleRate

/-- `decodeAudioData` (src/services/audioUtils.ts lines 29-46): reinterpret
the bytes as 16-bit samples, split them over the channels, and divide each
sample by 32768. -/
def decodeAudioData (data : List Nat) (sampleRate : ℚ) (numChannels : Nat) :
    Except DecodeError AudioBufferModel :=
  if data.length % 2 ≠ 0 then .error .byteLengthNotMultipleOfStride
  else
    let dataInt16 := toInt16List data
    if dataInt16.length % numChannels ≠ 0 ∨ dataInt16.length / numChannels = 0 then
      .error .invalidFrameCount
    else
      let frameCount := dataInt16.length / numChannels
      .ok { numChannels := numChannels
            frameCount := frameCount
            sampleRate := sampleRate
            channelData := (List.range numChannels).map (fun channel =>
              (List.range frameCount).map (fun i =>
                ((dataInt16.getD (i * numChannels + channel) 0 : Int) : ℚ) / 32768)) }

/-- Truncation toward zero of a rational, as JavaScript number-to-integer
conversion does. -/
def ratTrunc (q : ℚ) : Int := if 0 ≤ q then ⌊q⌋ else ⌈q⌉

/-- JavaScript `Int16Array` element assignment: truncate toward zero, wrap
modulo 2^16, reinterpret as signed. -/
def toInt16 (q : ℚ) : Int :=
  let m := ratTrunc q % 65536
  if m < 32768 then m else m - 65536

/-- The sample conversion of `createBlob` (src/services/audioUtils.ts
line 72): `int16[i] = data[i] * 32768`. -/
def createBlobInt16 (data : List ℚ) : List Int :=
  data.map (fun s => toInt16 (s * 32768))

/-- Little-endian bytes of one 16-bit sample (the `Uint8Array` view of the
`Int16Array` buffer). -/
def int16LEBytes (n : Int) : List Nat :=
  [(n % 65536).toNat % 256, (n % 65536).toNat / 256]

/-- The value returned by `createBlob`. -/
structure BlobModel where
  data : List Nat
  mimeType : String
deriving DecidableEq

/-- `createBlob` (src/services/audioUtils.ts lines 68-78). -/
def createBlob (data : List ℚ) : BlobModel :=
  { data := encode (((createBlobInt16 data).map int16LEBytes).flatten)
    mimeType := "audio/pcm;rate=16000" }

/-- The sample mapping the specification claims for `encode`:
`round(clamp(s, -1, 1) * 32767)`, with `round` as JavaScript `Math.round`
(floor of the value plus one half). Stated from the spec's words, for
comparison with `createBlobInt16`. -/
def specSampleMap (s : ℚ) : Int := ⌊min 1 (max (-1) s) * 32767 + 1 / 2⌋

end AudioUtils

namespace LiveChat

open AudioUtils

/-- A tracked playback unit: an `AudioBufferSourceNode` scheduled at a start
time on the output clock, with the buffer's duration. -/
structure SourceNode where
  startTime : ℚ
  duration : ℚ
deriving DecidableEq

/-- The spec's session lifecycle states (the source keeps this state
implicitly in its nullable fields; the phase is the spec's abstraction of
it, carried along as a ghost field and updated where the corresponding
control flow runs). `Closing` is not observable because the teardown
functions run atomically here, so only `closed` appears. -/
inductive Phase where
  | idle
  | connecting
  | active
  | closed
deriving DecidableEq

/-- The mutable fields of `LiveChatService` (src/services/geminiService.ts
lines 770-783). Nullable handles become `Bool` (held or not); the `sources`
set keeps insertion order as a list; `setError` writes `errorMsg`. -/
structure LiveState where
  sessionPromise : Bool
  inputAudioContext : Bool
  outputAudioContext : Bool
  scriptProcessor : Bool
  mediaStreamSource : Bool
  mediaStream : Bool
  outputNode : Bool
  sources : List SourceNode
  nextStartTime : ℚ
  errorMsg : Option String
  currentInputTranscription : String
  currentOutputTranscription : String
  phase : Phase
deriving DecidableEq

/-- A freshly constructed `LiveChatService`. -/
def initState : LiveState :=
  { sessionPromise := false
    inputAudioContext := false
    outputAudioContext := false
    scriptProcessor := false
    mediaStreamSource := false
    mediaStream := false
    outputNode := false
    sources := []
    nextStartTime := 0
    errorMsg := none
    currentInputTranscription := ""
    currentOutputTranscription := ""
    phase := .idle }

/-- Observable effects of one event: the value a `startSession` call
returns, whether the already-active warning was logged, the transcript
snapshots passed to `onTranscriptionUpdate`, and the sources on which
`.stop()` was called. -/
structure StepOut where
  ret : Option Bool
  warned : Bool
  emits : List (String × String)
  stopped : List SourceNode
deriving DecidableEq

/-- No observable effect. -/
def noOut : StepOut := { ret := none, warned := false, emits := [], stopped := [] }

/-- One inbound channel message (spec §6): any subset of an audio chunk
(with the output clock value read while handling it), transcription texts,
and the `turnComplete` / `interrupted` flags. -/
structure ServerMessage where
  clockNow : ℚ
  audio : Option (List Nat)
  inputTranscriptionText : Option String
  outputTranscriptionText : Option String
  turnComplete : Bool
  interrupted : Bool
deriving DecidableEq

/-- The scheduling arithmetic of the audio branch (lines 839-858): clamp
`nextStartTime` to the output clock, start the unit at the clamped time,
and advance `nextStartTime` by the unit's duration. Returns
`(startTime, new nextStartTime)`. -/
def scheduleStep (nextStartTime clockNow duration : ℚ) : ℚ × ℚ :=
  let startTime := max nextStartTime clockNow
  (startTime, startTime + duration)

/-- The audio branch of `onmessage` (lines 837-864): if audio data is
present and the output context and node are held, clamp `nextStartTime`,
decode; on decode failure log and set the error message (the unit is
skipped); on success schedule a new source and track it. -/
def handleAudioChunk (s : LiveState) (clockNow : ℚ) (audio : Option (List Nat)) : LiveState :=
  match audio with
  | none => s
  | some bytes =>
    if s.outputAudioContext && s.outputNode then
      match decodeAudioData bytes 24000 1 with
      | .error _ =>
          { s with nextStartTime := max s.nextStartTime clockNow
                   errorMsg := some "Failed to play audio response." }
      | .ok buffer =>
          let sp := scheduleStep s.nextStartTime clockNow buffer.duration
          { s with sources := s.sources ++ [{ startTime := sp.1, duration := buffer.duration }]
                   nextStartTime := sp.2 }
    else s

/-- The transcription branch of `onmessage` (lines 866-881): append any
present texts to the working buffers, emit the snapshot, and on
`turnComplete` clear both buffers after emitting. Returns the new state and
the emitted snapshot. -/
def handleTranscription (s : LiveState) (m : ServerMessage) : LiveState × (String × String) :=
  let s1 := { s with
    currentOutputTranscription :=
      s.currentOutputTranscription ++ (m.outputTranscriptionText.getD "")
    currentInputTranscription :=
      s.currentInputTranscription ++ (m.inputTranscriptionText.getD "") }
  if m.turnComplete then
    ({ s1 with currentInputTranscription := "", currentOutputTranscription := "" },
     (s1.currentInputTranscription, s1.currentOutputTranscription))
  else
    (s1, (s1.currentInputTranscription, s1.currentOutputTranscription))

/-- The interruption branch of `onmessage` (lines 884-891): stop every
tracked source, empty the set, and set `nextStartTime` to 0. Returns the
new state and the sources that were stopped. -/
def handleInterrupted (s : LiveState) : LiveState × List SourceNode :=
  ({ s with sources := [], nextStartTime := 0 }, s.sources)

/-- The whole `onmessage` callback (lines 835-892), in source order: audio,
then transcription, then interruption. -/
def stepMsg (s : LiveState) (m : ServerMessage) : LiveState × StepOut :=
  let s1 := handleAudioChunk s m.clockNow m.audio
  let s2 := (handleTranscription s1 m).1
  let snapshot := (handleTranscription s1 m).2
  if m.interrupted then
    ((handleInterrupted s2).1,
     { ret := none, warned := false, emits := [snapshot],
       stopped := (handleInterrupted s2).2 })
  else
    (s2, { ret := none, warned := false, emits := [snapshot], stopped := [] })

/-- `stopSessionCleanup` (lines 932-967): release the processor, stream
source, stream and input context; if the output context is held, stop every
tracked source, empty the set, reset `nextStartTime` and release the
context; release the output node; emit a final transcript snapshot and
clear both buffers. -/
def stopSessionCleanup (s : LiveState) : LiveState × StepOut :=
  let s4 := { s with scriptProcessor := false
                     mediaStreamSource := false
                     mediaStream := false
                     inputAudioContext := false }
  let s5 := if s4.outputAudioContext then
              { s4 with sources := [], nextStartTime := 0, outputAudioContext := false }
            else s4
  let stoppedSources := if s4.outputAudioContext then s4.sources else []
  let s6 := { s5 with outputNode := false }
  ({ s6 with currentInputTranscription := "", currentOutputTranscription := "" },
   { ret := none, warned := false
     emits := [(s6.currentInputTranscription, s6.currentOutputTranscription)]
     stopped := stoppedSources })

/-- `stopSession` (lines 922-930): close the remote session and drop the
handle if one is held, then run the cleanup. -/
def stopSession (s : LiveState) : LiveState × StepOut :=
  let s1 := if s.sessionPromise then { s with sessionPromise := false } else s
  stopSessionCleanup s1

/-- Ghost phase update helper. -/
def LiveState.mkClosed (s : LiveState) : LiveState := { s with phase := .closed }

/-- An explicit `stopSession` call; the session is Closed afterwards. -/
def stepStop (s : LiveState) : LiveState × StepOut :=
  ((stopSession s).1.mkClosed, (stopSession s).2)

/-- `startSession` reaching `return true` (lines 793-913): the
already-active guard warns and changes nothing; otherwise clear the error
and the transcript buffers, emit the cleared snapshot, allocate both audio
contexts and the output gain node, acquire the microphone stream, store the
`ai.live.connect` promise and return `true`. The promise is stored without
`await` (line 816), so `startSession` returns `true` whether or not the
channel later opens. -/
def stepStartOk (s : LiveState) : LiveState × StepOut :=
  if s.sessionPromise then
    (s, { ret := none, warned := true, emits := [], stopped := [] })
  else
    ({ s with errorMsg := none
              currentInputTranscription := ""
              currentOutputTranscription := ""
              inputAudioContext := true
              outputAudioContext := true
              outputNode := true
              mediaStream := true
              sessionPromise := true
              phase := .connecting },
     { ret := some true, warned := false, emits := [("", "")], stopped := [] })

/-- `startSession` failing before the channel handle is installed (the
catch branch, lines 914-919): the guard behaves as above; otherwise the
failure is modelled at the awaited microphone request (line 812), after the
contexts and output node were allocated: the catch sets the error message,
runs `stopSession`, and returns `false`. Only the synchronous setup and the
awaited `getUserMedia` can reach this catch; an asynchronous rejection of
the un-awaited `ai.live.connect` promise cannot (see
`stepConnectRejected`). -/
def stepStartFail (s : LiveState) (errText : String) : LiveState × StepOut :=
  if s.sessionPromise then
    (s, { ret := none, warned := true, emits := [], stopped := [] })
  else
    let s1 := { s with errorMsg := none
                       currentInputTranscription := ""
                       currentOutputTranscription := ""
                       inputAudioContext := true
                       outputAudioContext := true
                       outputNode := true }
    let s2 := { s1 with errorMsg := some errText }
    ({ (stopSession s2).1 with phase := .idle },
     { ret := some false, warned := false
       emits := ("", "") :: (stopSession s2).2.emits
       stopped := (stopSession s2).2.stopped })

/-- The channel failing to open: the `ai.live.connect` promise stored at
line 816 rejects. `startSession` already returned `true` (the promise is
never awaited there) and no rejection handler is attached at creation, so
the rejection itself runs none of the service's code — the state is
unchanged: the handle, contexts, node and stream stay allocated, no error
message is set, and the already-active guard keeps rejecting retries until
`stopSession` (or a later `onerror`) runs. -/
def stepConnectRejected (s : LiveState) : LiveState := s

/-- The `onopen` callback (lines 819-834): wire the capture pipeline if the
input context and stream are held; the session is now Active. -/
def stepChanOpen (s : LiveState) : LiveState :=
  if s.inputAudioContext && s.mediaStream then
    { s with mediaStreamSource := true, scriptProcessor := true, phase := .active }
  else
    { s with phase := .active }

/-- The `onerror` callback (lines 893-897): set the error message and run
`stopSession`; the session is Closed afterwards. -/
def stepChanError (s : LiveState) : LiveState × StepOut :=
  ((stopSession { s with
      errorMsg := some "Voice chat encountered an error. Please try again." }).1.mkClosed,
   (stopSession { s with
      errorMsg := some "Voice chat encountered an error. Please try again." }).2)

/-- The `onclose` callback (lines 898-901): run `stopSessionCleanup` only
(the session handle itself is not dropped); the session is Closed. -/
def stepChanClose (s : LiveState) : LiveState × StepOut :=
  ((stopSessionCleanup s).1.mkClosed, (stopSessionCleanup s).2)

/-- The `ended` listener of a scheduled source (lines 853-855): the finished
source removes itself from the tracked set. -/
def stepSourceEnded (s : LiveState) (i : Nat) : LiveState :=
  { s with sources := s.sources.eraseIdx i }

/-- The events that drive the session. -/
inductive Event where
  | startOk
  | startFail (errText : String)
  | chanOpen
  | msg (m : ServerMessage)
  | stop
  | chanError
  | chanClose
  | sourceEnded (i : Nat)

/-- One step of the session machine. -/
def step (s : LiveState) : Event → LiveState × StepOut
  | .startOk => stepStartOk s
  | .startFail errText => stepStartFail s errText
  | .chanOpen => (stepChanOpen s, noOut)
  | .msg m => stepMsg s m
  | .stop => stepStop s
  | .chanError => stepChanError s
  | .chanClose => stepChanClose s
  | .sourceEnded i => (stepSourceEnded s i, noOut)

/-- Which events the environment can deliver in a state: channel callbacks
only fire while the channel exists (`onopen` once while Connecting,
messages while Active), caller calls and source-ended are unrestricted.
This is the transport contract of spec §6. -/
def enabled (s : LiveState) : Event → Prop
  | .chanOpen => s.phase = .connecting
  | .msg _ => s.phase = .active
  | .chanError => s.phase = .connecting ∨ s.phase = .active
  | .chanClose => s.phase = .connecting ∨ s.phase = .active
  | _ => True

/-- States a `LiveChatService` can actually be in. -/
inductive Reachable : LiveState → Prop where
  | init : Reachable initState
  | next {s : LiveState} (e : Event) : Reachable s → enabled s e → Reachable (step s e).1

/-- The state invariant: tracked sources exist only while Active, never
without the output context, and a live channel phase implies the session
handle is held. -/
def StateInv (s : LiveState) : Prop :=
  (s.sources ≠ [] → s.phase = .active)
  ∧ (s.outputAudioContext = false → s.sources = [])
  ∧ ((s.phase = .active ∨ s.phase = .connecting) → s.sessionPromise = true)

/-- Folding `scheduleStep` over a run of arriving packets: the input pairs
are (output clock at arrival, decoded duration), the output pairs are
(scheduled start time, duration). -/
def scheduleTrace (nextStartTime : ℚ) : List (ℚ × ℚ) → List (ℚ × ℚ)
  | [] => []
  | (clockNow, duration) :: rest =>
      (max nextStartTime clockNow, duration) ::
        scheduleTrace (scheduleStep nextStartTime clockNow duration).2 rest

/-- The packets all arrive before the queued audio drains: at each arrival
the output clock is at most the pending `nextAvailableStartTime`. -/
def ClockNeverOvertakes : ℚ → List (ℚ × ℚ) → Prop
  | _, [] => True
  | nextStartTime, (clockNow, duration) :: rest =>
      clockNow ≤ nextStartTime ∧
      ClockNeverOvertakes (scheduleStep nextStartTime clockNow duration).2 rest

/-- A concrete tracked source, for counterexamples and witnesses. -/
def exSource : SourceNode := { startTime := 1, duration := 2 }

/-- A concrete Active session with one tracked source and a pending
`nextStartTime` of 7. -/
def exState : LiveState :=
  { initState with
      sessionPromise := true
      inputAudioContext := true
      outputAudioContext := true
      outputNode := true
      mediaStream := true
      sources := [exSource]
      nextStartTime := 7
      phase := .active }

/-- A concrete Active session with empty transcript buffers and no sources. -/
def exActiveState : LiveState :=
  { initState with
      sessionPromise := true
      inputAudioContext := true
      outputAudioContext := true
      outputNode := true
      mediaStream := true
      phase := .active }

/-- A message carrying only the `interrupted` flag, read while the output
clock stands at 5. -/
def exInterruptMsg : ServerMessage :=
  { clockNow := 5, audio := none, inputTranscriptionText := none
    outputTranscriptionText := none, turnComplete := false, interrupted := true }

/-- A message carrying only input transcription text. -/
def msgIn (t : String) : ServerMessage :=
  { clockNow := 0, audio := none, inputTranscriptionText := some t
    outputTranscriptionText := none, turnComplete := false, interrupted := false }

/-- A message carrying only the `turnComplete` flag. -/
def msgTurnComplete : ServerMessage :=
  { clockNow := 0, audio := none, inputTranscriptionText := none
    outputTranscriptionText := none, turnComplete := true, interrupted := false }

end LiveChat

open AudioUtils LiveChat

theorem b64Val_b64Char : ∀ s < 64, b64Val (b64Char s) = some s := by decide

theorem b64Char_ne_61 (s : Nat) : b64Char s ≠ 61 := by
  unfold b64Char
  split_ifs <;> omega

theorem btoaModel_shape (x : Nat) (xs : List Nat) :
    ∃ a b t, btoaModel (x :: xs) = a :: b :: t := by
  rcases xs with _ | ⟨y, _ | ⟨z, t⟩⟩ <;> exact ⟨_, _, _, rfl⟩

theorem atob_btoa : ∀ l : List Nat, (∀ b ∈ l, b < 256) →
    atobModel (btoaModel l) = some l
  | [] => fun _ => rfl
  | [b0] => fun h => by
      have hb0 : b0 < 256 := h b0 (by simp)
      have h0 := b64Val_b64Char (b0 / 4) (by omega)
      have h1 := b64Val_b64Char (b0 % 4 * 16) (by omega)
      simp [btoaModel, atobModel, h0, h1]
      omega
  | [b0, b1] => fun h => by
      have hb0 : b0 < 256 := h b0 (by simp)
      have hb1 : b1 < 256 := h b1 (by simp)
      have h0 := b64Val_b64Char (b0 / 4) (by omega)
      have h1 := b64Val_b64Char (b0 % 4 * 16 + b1 / 16) (by omega)
      have h2 := b64Val_b64Char (b1 % 16 * 4) (by omega)
      have n2 := b64Char_ne_61 (b1 % 16 * 4)
      simp [btoaModel, atobModel, h0, h1, h2, n2]
      omega
  | b0 :: b1 :: b2 :: rest => fun h => by
      have ih := atob_btoa rest (fun x hx => h x (by simp [hx]))
      have hb0 : b0 < 256 := h b0 (by simp)
      have hb1 : b1 < 256 := h b1 (by simp)
      have hb2 : b2 < 256 := h b2 (by simp)
      have h0 := b64Val_b64Char (b0 / 4) (by omega)
      have h1 := b64Val_b64Char (b0 % 4 * 16 + b1 / 16) (by omega)
      have h2 := b64Val_b64Char (b1 % 16 * 4 + b2 / 64) (by omega)
      have h3 := b64Val_b64Char (b2 % 64) (by omega)
      rcases rest with _ | ⟨r, rs⟩
      · have n2 := b64Char_ne_61 (b1 % 16 * 4 + b2 / 64)
        have n3 := b64Char_ne_61 (b2 % 64)
        simp [btoaModel, atobModel, h0, h1, h2, h3, n2, n3]
        omega
      · obtain ⟨a, b, t, hsh⟩ := btoaModel_shape r rs
        rw [hsh] at ih
        simp [btoaModel, atobModel, hsh, ih, h0, h1, h2, h3]
        omega

/-- Claim C10: the base64 helpers form a round trip: for every byte array
`b`, `decode (encode b)` returns a byte array equal to `b` (same length,
same byte at every index). -/
theorem base64_roundtrip (b : List Nat) (h : ∀ x ∈ b, x < 256) :
    AudioUtils.decode (AudioUtils.encode b) = some b :=
  atob_btoa b h

/-- Witness for `base64_roundtrip` at a concrete byte array. -/
theorem base64_roundtrip_witness :
    AudioUtils.decode (AudioUtils.encode [104, 101, 108, 255, 0]) =
      some [104, 101, 108, 255, 0] :=
  base64_roundtrip [104, 101, 108, 255, 0] (by decide)

theorem ratTrunc_32768 : ratTrunc (32768 : ℚ) = 32768 := by
  rw [ratTrunc, if_pos (by norm_num : (0 : ℚ) ≤ 32768),
    show ((32768 : ℚ)) = ((32768 : Int) : ℚ) by norm_num]
  exact Int.floor_intCast 32768

theorem toInt16_32768 : toInt16 (32768 : ℚ) = -32768 := by
  simp only [toInt16, ratTrunc_32768]
  norm_num

theorem toInt16_one_32768 : toInt16 ((1 : ℚ) * 32768) = -32768 := by
  rw [show ((1 : ℚ) * 32768) = (32768 : ℚ) by norm_num]
  exact toInt16_32768

/-- Claim C3 counterexample: at sample 1 the code's conversion
(`data[i] * 32768` with `Int16Array` truncate-and-wrap) yields -32768,
while the specified `round(clamp(1, -1, 1) * 32767)` is 32767. -/
theorem encode_sample_map_counterexample :
    createBlobInt16 [1] = [-32768] ∧ specSampleMap 1 = 32767 ∧
    createBlobInt16 [1] ≠ [specSampleMap 1] := by
  have h3 : specSampleMap 1 = 32767 := by
    rw [specSampleMap,
      show min (1 : ℚ) (max (-1) 1) * 32767 + 1 / 2 = 65535 / 2 by norm_num,
      Int.floor_eq_iff]
    constructor <;> norm_num
  refine ⟨by simp [createBlobInt16, toInt16_32768], h3, ?_⟩
  simp [createBlobInt16, toInt16_32768, h3]

/-- Claim C3 (amended): `createBlob` maps each float sample `s` to the
signed 16-bit wrap of the truncation toward zero of `s * 32768` (no
clamping, no rounding, multiplier 32768); for in-range samples
`-1 ≤ s < 1` this is exactly the truncation of `s * 32768`, the result
always fits 16 bits, and `s = 1` wraps to -32768. The conversion is a pure
function of the sample list. -/
theorem encode_sample_map (s : ℚ) (h1 : -1 ≤ s) (h2 : s < 1) :
    createBlobInt16 [s] = [toInt16 (s * 32768)] ∧
    toInt16 (s * 32768) = ratTrunc (s * 32768) ∧
    -32768 ≤ toInt16 (s * 32768) ∧ toInt16 (s * 32768) ≤ 32767 ∧
    toInt16 (1 * 32768) = -32768 := by
  have hq1 : (-32768 : ℚ) ≤ s * 32768 := by nlinarith
  have hq2 : s * 32768 < 32768 := by nlinarith
  have htr : -32768 ≤ ratTrunc (s * 32768) ∧ ratTrunc (s * 32768) ≤ 32767 := by
    unfold ratTrunc
    split_ifs with hq
    · have hA : (0 : Int) ≤ ⌊s * 32768⌋ := Int.le_floor.mpr (by exact_mod_cast hq)
      have hB : ⌊s * 32768⌋ < 32768 := Int.floor_lt.mpr (by exact_mod_cast hq2)
      omega
    · push_neg at hq
      have hA : ⌈s * 32768⌉ ≤ 0 := Int.ceil_le.mpr (by exact_mod_cast le_of_lt hq)
      have hB : ((-32768 : Int) : ℚ) ≤ (⌈s * 32768⌉ : ℚ) :=
        le_trans (by exact_mod_cast hq1) (Int.le_ceil (s * 32768))
      have hB' : (-32768 : Int) ≤ ⌈s * 32768⌉ := by exact_mod_cast hB
      omega
  have hti : toInt16 (s * 32768) = ratTrunc (s * 32768) := by
    simp only [toInt16]
    obtain ⟨hA, hB⟩ := htr
    split_ifs <;> omega
  refine ⟨rfl, hti, ?_, ?_, toInt16_one_32768⟩
  · rw [hti]; exact htr.1
  · rw [hti]; exact htr.2

/-- Witness for `encode_sample_map` at the in-range sample 1/2. -/
theorem encode_sample_map_witness :
    createBlobInt16 [(1 : ℚ) / 2] = [toInt16 ((1 : ℚ) / 2 * 32768)] ∧
    toInt16 ((1 : ℚ) / 2 * 32768) = ratTrunc ((1 : ℚ) / 2 * 32768) ∧
    -32768 ≤ toInt16 ((1 : ℚ) / 2 * 32768) ∧ toInt16 ((1 : ℚ) / 2 * 32768) ≤ 32767 ∧
    toInt16 (1 * 32768) = -32768 :=
  encode_sample_map ((1 : ℚ) / 2) (by norm_num) (by norm_num)

theorem scheduleTrace_chain_le (l : List (ℚ × ℚ)) : ∀ next : ℚ,
    List.Chain' (fun u v : ℚ × ℚ => u.1 + u.2 ≤ v.1) (scheduleTrace next l) ∧
    ∀ u ∈ (scheduleTrace next l).head?, next ≤ u.1 := by
  induction l with
  | nil => intro next; simp [scheduleTrace]
  | cons p rest ih =>
      intro next
      obtain ⟨c, d⟩ := p
      rw [scheduleTrace]
      constructor
      · rw [List.chain'_cons']
        refine ⟨?_, (ih (scheduleStep next c d).2).1⟩
        intro u hu
        have h2 := (ih (scheduleStep next c d).2).2 u hu
        simpa [scheduleStep] using h2
      · intro u hu
        simp only [List.head?_cons, Option.mem_def, Option.some.injEq] at hu
        subst hu
        exact le_max_left next c

theorem scheduleTrace_chain_eq (l : List (ℚ × ℚ)) : ∀ next : ℚ,
    ClockNeverOvertakes next l →
    List.Chain' (fun u v : ℚ × ℚ => v.1 = u.1 + u.2) (scheduleTrace next l) ∧
    ∀ u ∈ (scheduleTrace next l).head?, u.1 = next := by
  induction l with
  | nil => intro next _; simp [scheduleTrace]
  | cons p rest ih =>
      intro next h
      obtain ⟨c, d⟩ := p
      obtain ⟨hc, hrest⟩ := h
      have hmax : max next c = next := max_eq_left hc
      rw [scheduleTrace]
      constructor
      · rw [List.chain'_cons']
        refine ⟨?_, (ih (scheduleStep next c d).2 hrest).1⟩
        intro u hu
        have h2 := (ih (scheduleStep next c d).2 hrest).2 u hu
        simpa [scheduleStep] using h2
      · intro u hu
        simp only [List.head?_cons, Option.mem_def, Option.some.injEq] at hu
        subst hu
        exact hmax

/-- Claim C1 counterexample: two packets of duration 1, the second arriving
when the output clock already stands at 10: no interruption occurred, yet
the second unit starts at 10, not at 0 + 1 — the gap is not zero. -/
theorem scheduler_zero_gap_counterexample :
    scheduleTrace 0 [(0, 1), (10, 1)] = [(0, 1), (10, 1)] ∧
    ¬ List.Chain' (fun u v : ℚ × ℚ => v.1 = u.1 + u.2)
        (scheduleTrace 0 [(0, 1), (10, 1)]) := by
  have ht : scheduleTrace 0 [(0, 1), (10, 1)] = [((0 : ℚ), (1 : ℚ)), (10, 1)] := by
    norm_num [scheduleTrace, scheduleStep, max_def]
  refine ⟨ht, ?_⟩
  rw [ht, List.chain'_pair]
  norm_num

/-- Claim C1 (amended): each arriving packet is scheduled at
`max(nextAvailableStartTime, outputClockNow)` and advances
`nextAvailableStartTime` by its duration (this is `scheduleStep`, used
verbatim by the audio handler); consequently consecutive units always
satisfy `startTime(i+1) ≥ startTime(i) + duration(i)`, and the gap is zero
provided each packet arrives while the output clock is still at most the
pending `nextAvailableStartTime`; a packet arriving after the queued audio
has drained starts at the current clock, leaving a gap even with no
interruption. -/
theorem scheduler_gapless (next : ℚ) (packets : List (ℚ × ℚ)) :
    List.Chain' (fun u v : ℚ × ℚ => u.1 + u.2 ≤ v.1) (scheduleTrace next packets) ∧
    (ClockNeverOvertakes next packets →
      List.Chain' (fun u v : ℚ × ℚ => v.1 = u.1 + u.2) (scheduleTrace next packets)) :=
  ⟨(scheduleTrace_chain_le packets next).1,
   fun h => (scheduleTrace_chain_eq packets next h).1⟩

/-- Witness for `scheduler_gapless`: the spec's scenario of three packets of
durations 1, 1/2, 3/4 arriving in time, from `t0 = 0`. -/
theorem scheduler_gapless_witness :
    List.Chain' (fun u v : ℚ × ℚ => v.1 = u.1 + u.2)
      (scheduleTrace 0 [(0, 1), (0, 1 / 2), (0, 3 / 4)]) :=
  (scheduler_gapless 0 [(0, 1), (0, 1 / 2), (0, 3 / 4)]).2
    (by norm_num [ClockNeverOvertakes, scheduleStep])

theorem handleAudioChunk_fields (s : LiveState) (c : ℚ) (a : Option (List Nat)) :
    (handleAudioChunk s c a).phase = s.phase ∧
    (handleAudioChunk s c a).sessionPromise = s.sessionPromise ∧
    (handleAudioChunk s c a).outputAudioContext = s.outputAudioContext ∧
    (handleAudioChunk s c a).currentInputTranscription = s.currentInputTranscription ∧
    (handleAudioChunk s c a).currentOutputTranscription = s.currentOutputTranscription := by
  rcases a with _ | bytes
  · exact ⟨rfl, rfl, rfl, rfl, rfl⟩
  · simp only [handleAudioChunk]
    split_ifs with hg
    · rcases hdec : decodeAudioData bytes 24000 1 with e | b <;> simp [hdec]
    · exact ⟨rfl, rfl, rfl, rfl, rfl⟩

theorem handleAudioChunk_sources_of_not_output (s : LiveState) (c : ℚ)
    (a : Option (List Nat)) (h : s.outputAudioContext = false) :
    (handleAudioChunk s c a).sources = s.sources := by
  rcases a with _ | bytes
  · rfl
  · simp [handleAudioChunk, h]

/-- Claim C2 counterexample: an `interrupted` message handled while the
output clock stands at 5 leaves `nextStartTime` at 0, not at the clock's
current value: the code writes `this.nextStartTime = 0`. -/
theorem interrupt_clock_reset_counterexample :
    (stepMsg exState exInterruptMsg).1.nextStartTime = 0 ∧
    (stepMsg exState exInterruptMsg).1.nextStartTime ≠ exInterruptMsg.clockNow := by
  have h : (stepMsg exState exInterruptMsg).1.nextStartTime = 0 := by
    simp [stepMsg, exInterruptMsg, handleAudioChunk, handleTranscription, handleInterrupted]
  refine ⟨h, ?_⟩
  rw [h]
  norm_num [exInterruptMsg]

/-- Claim C2 (amended): on an `interrupted` message every tracked unit is
stopped and the active set emptied, but `nextStartTime` is reset to 0, not
to the output clock's current value; because every later schedule clamps
with `max(nextStartTime, outputClockNow)`, the next unit nevertheless
starts at the then-current (non-negative) clock value. -/
theorem interrupt_stops_all (s : LiveState) (m : ServerMessage) (c d : ℚ)
    (hint : m.interrupted = true) (haud : m.audio = none) (hc : 0 ≤ c) :
    (stepMsg s m).1.sources = [] ∧
    (stepMsg s m).2.stopped = s.sources ∧
    (stepMsg s m).1.nextStartTime = 0 ∧
    (scheduleStep 0 c d).1 = c := by
  by_cases htc : m.turnComplete <;>
    simp [stepMsg, haud, hint, htc, handleAudioChunk, handleTranscription,
      handleInterrupted, scheduleStep, max_eq_right hc]

/-- Witness for `interrupt_stops_all` at the concrete Active state with one
tracked source. -/
theorem interrupt_stops_all_witness :
    (stepMsg exState exInterruptMsg).1.sources = [] ∧
    (stepMsg exState exInterruptMsg).2.stopped = exState.sources ∧
    (stepMsg exState exInterruptMsg).1.nextStartTime = 0 ∧
    (scheduleStep 0 5 2).1 = 5 :=
  interrupt_stops_all exState exInterruptMsg 5 2 rfl rfl (by norm_num)

/-- Claim C4: when `turnComplete` arrives, the handler first emits the
final accumulated snapshot (prior buffer contents plus this message's
texts) and then leaves both transcript buffers empty; in the spec's
scenario, appending "hel" then "lo" and completing the turn emits
`inputSoFar = "hello"`, and a following append of "hi" starts from empty,
producing "hi". -/
theorem turn_complete_clears_buffers (s : LiveState) (m : ServerMessage)
    (htc : m.turnComplete = true) :
    ((stepMsg s m).1.currentInputTranscription = "" ∧
     (stepMsg s m).1.currentOutputTranscription = "" ∧
     (stepMsg s m).2.emits =
       [(s.currentInputTranscription ++ m.inputTranscriptionText.getD "",
         s.currentOutputTranscription ++ m.outputTranscriptionText.getD "")]) ∧
    ((stepMsg (stepMsg (stepMsg exActiveState (msgIn "hel")).1 (msgIn "lo")).1
        msgTurnComplete).2.emits = [("hello", "")] ∧
     (stepMsg (stepMsg (stepMsg exActiveState (msgIn "hel")).1 (msgIn "lo")).1
        msgTurnComplete).1.currentInputTranscription = "" ∧
     (stepMsg (stepMsg (stepMsg (stepMsg exActiveState (msgIn "hel")).1
        (msgIn "lo")).1 msgTurnComplete).1
        (msgIn "hi")).1.currentInputTranscription = "hi") := by
  obtain ⟨hp, hsp, hoc, hIn, hOut⟩ := handleAudioChunk_fields s m.clockNow m.audio
  refine ⟨?_, by decide⟩
  by_cases hir : m.interrupted <;>
    simp [stepMsg, htc, hir, handleTranscription, handleInterrupted, hIn, hOut]

/-- Witness for `turn_complete_clears_buffers` at a concrete message. -/
theorem turn_complete_clears_buffers_witness :
    (stepMsg exActiveState msgTurnComplete).1.currentInputTranscription = "" ∧
    (stepMsg exActiveState msgTurnComplete).1.currentOutputTranscription = "" :=
  ⟨(turn_complete_clears_buffers exActiveState msgTurnComplete rfl).1.1,
   (turn_complete_clears_buffers exActiveState msgTurnComplete rfl).1.2.1⟩

/-- Claim C5: a byte sequence of odd length (not a whole multiple of the
16-bit sample stride) fails to decode with a `DecodeError`, and the failure
is local: the audio handler skips the unit (no source scheduled) and leaves
the session's phase and channel handle untouched — it never tears the
session down. -/
theorem odd_length_decode_nonfatal (s : LiveState) (clockNow : ℚ)
    (bytes : List Nat) (hodd : bytes.length % 2 = 1) :
    decodeAudioData bytes 24000 1 =
      Except.error DecodeError.byteLengthNotMultipleOfStride ∧
    (handleAudioChunk s clockNow (some bytes)).sources = s.sources ∧
    (handleAudioChunk s clockNow (some bytes)).phase = s.phase ∧
    (handleAudioChunk s clockNow (some bytes)).sessionPromise = s.sessionPromise := by
  have hdec : decodeAudioData bytes 24000 1 =
      Except.error DecodeError.byteLengthNotMultipleOfStride := by
    simp only [decodeAudioData]
    rw [if_pos (show bytes.length % 2 ≠ 0 by omega)]
  refine ⟨hdec, ?_⟩
  simp only [handleAudioChunk]
  split_ifs with hg
  · simp [hdec]
  · exact ⟨rfl, rfl, rfl⟩

/-- Witness for `odd_length_decode_nonfatal` on a one-byte packet. -/
theorem odd_length_decode_nonfatal_witness :
    decodeAudioData [0] 24000 1 =
      Except.error DecodeError.byteLengthNotMultipleOfStride ∧
    (handleAudioChunk exState 0 (some [0])).sources = exState.sources ∧
    (handleAudioChunk exState 0 (some [0])).phase = exState.phase ∧
    (handleAudioChunk exState 0 (some [0])).sessionPromise = exState.sessionPromise :=
  odd_length_decode_nonfatal exState 0 [0] rfl

theorem stepMsg_fields (s : LiveState) (m : ServerMessage) :
    (stepMsg s m).1.phase = s.phase ∧
    (stepMsg s m).1.sessionPromise = s.sessionPromise ∧
    (stepMsg s m).1.outputAudioContext = s.outputAudioContext := by
  obtain ⟨hp, hsp, hoc, hIn, hOut⟩ := handleAudioChunk_fields s m.clockNow m.audio
  by_cases hir : m.interrupted <;> by_cases htc : m.turnComplete <;>
    simp [stepMsg, handleTranscription, handleInterrupted, hir, htc, hp, hsp, hoc]

theorem stopSessionCleanup_sources (s : LiveState)
    (hsc : s.outputAudioContext = false → s.sources = []) :
    (stopSessionCleanup s).1.sources = [] := by
  rcases hoc : s.outputAudioContext
  · simp [stopSessionCleanup, hoc, hsc hoc]
  · simp [stopSessionCleanup, hoc]

theorem stopSessionCleanup_stopped (s : LiveState)
    (hsc : s.outputAudioContext = false → s.sources = []) :
    (stopSessionCleanup s).2.stopped = s.sources := by
  rcases hoc : s.outputAudioContext
  · simp [stopSessionCleanup, hoc, hsc hoc]
  · simp [stopSessionCleanup, hoc]

theorem stopSession_sources (s : LiveState)
    (hsc : s.outputAudioContext = false → s.sources = []) :
    (stopSession s).1.sources = [] := by
  simp only [stopSession]
  split_ifs with hg
  · exact stopSessionCleanup_sources _ hsc
  · exact stopSessionCleanup_sources _ hsc

theorem stopSession_stopped (s : LiveState)
    (hsc : s.outputAudioContext = false → s.sources = []) :
    (stopSession s).2.stopped = s.sources := by
  simp only [stopSession]
  split_ifs with hg
  · exact stopSessionCleanup_stopped _ hsc
  · exact stopSessionCleanup_stopped _ hsc

theorem inv_init : StateInv initState := by
  simp [StateInv, initState]

theorem inv_step (s : LiveState) (e : Event) (hi : StateInv s) (he : enabled s e) :
    StateInv (step s e).1 := by
  obtain ⟨h1, h2, h3⟩ := hi
  cases e with
  | startOk =>
      simp only [step, stepStartOk]
      split_ifs with hg
      · exact ⟨h1, h2, h3⟩
      · have hsrc : s.sources = [] := by
          by_contra hne
          exact hg (h3 (Or.inl (h1 hne)))
        exact ⟨fun hne => absurd hsrc hne, fun _ => hsrc, fun _ => rfl⟩
  | startFail errText =>
      simp only [step, stepStartFail]
      split_ifs with hg
      · exact ⟨h1, h2, h3⟩
      · refine ⟨?_, ?_, ?_⟩ <;> simp [stopSession, stopSessionCleanup, hg]
  | chanOpen =>
      have hsrc : s.sources = [] := by
        by_contra hne
        have hact := h1 hne
        rw [he] at hact
        exact Phase.noConfusion hact
      have hsp : s.sessionPromise = true := h3 (Or.inr he)
      simp only [step, stepChanOpen]
      split_ifs with hg <;>
        exact ⟨fun _ => rfl, fun _ => hsrc, fun _ => hsp⟩
  | msg m =>
      obtain ⟨hp, hsp, hoc⟩ := stepMsg_fields s m
      simp only [step]
      refine ⟨fun _ => by rw [hp]; exact he, ?_, fun _ => by rw [hsp]; exact h3 (Or.inl he)⟩
      intro hocf
      rw [hoc] at hocf
      have hss : s.sources = [] := h2 hocf
      have hsrc1 : (handleAudioChunk s m.clockNow m.audio).sources = s.sources :=
        handleAudioChunk_sources_of_not_output s _ _ hocf
      by_cases hir : m.interrupted <;> by_cases htc : m.turnComplete <;>
        simp [stepMsg, handleTranscription, handleInterrupted, hir, htc, hsrc1, hss]
  | stop =>
      have hz : (step s Event.stop).1.sources = [] := stopSession_sources s h2
      refine ⟨fun hne => absurd hz hne, fun _ => hz, fun hph => ?_⟩
      rcases hph with hph | hph <;> exact Phase.noConfusion hph
  | chanError =>
      have hz : (step s Event.chanError).1.sources = [] :=
        stopSession_sources { s with
          errorMsg := some "Voice chat encountered an error. Please try again." } h2
      refine ⟨fun hne => absurd hz hne, fun _ => hz, fun hph => ?_⟩
      rcases hph with hph | hph <;> exact Phase.noConfusion hph
  | chanClose =>
      have hz : (step s Event.chanClose).1.sources = [] :=
        stopSessionCleanup_sources s h2
      refine ⟨fun hne => absurd hz hne, fun _ => hz, fun hph => ?_⟩
      rcases hph with hph | hph <;> exact Phase.noConfusion hph
  | sourceEnded i =>
      refine ⟨fun hne => h1 ?_, fun hocf => ?_, h3⟩
      · intro hs
        exact hne (by simp [step, stepSourceEnded, hs])
      · simp [step, stepSourceEnded, h2 hocf]

theorem reachable_inv (s : LiveState) (hr : Reachable s) : StateInv s := by
  induction hr with
  | init => exact inv_init
  | next e hr he ih => exact inv_step _ e ih he

/-- Claim C8: calling `startSession` while a session handle already exists
(Connecting or Active) is rejected with only a console warning, not an
error: the returned state is the input state unchanged in every field,
whether the attempt would have succeeded or failed. -/
theorem start_guard_noop (s : LiveState) (errText : String)
    (h : s.sessionPromise = true) :
    (stepStartOk s).1 = s ∧ (stepStartOk s).2.warned = true ∧
    (stepStartOk s).2.ret = none ∧
    (stepStartFail s errText).1 = s ∧ (stepStartFail s errText).2.warned = true := by
  simp [stepStartOk, stepStartFail, h]

/-- Witness for `start_guard_noop` at the concrete Active state. -/
theorem start_guard_noop_witness :
    (stepStartOk exState).1 = exState ∧ (stepStartOk exState).2.warned = true ∧
    (stepStartOk exState).2.ret = none ∧
    (stepStartFail exState "boom").1 = exState ∧
    (stepStartFail exState "boom").2.warned = true :=
  start_guard_noop exState "boom" rfl

/-- Claim C9 counterexample: the claim's "channel failed to open" case.
`startSession` stores the `ai.live.connect` promise without awaiting it and
returns `true` (`some true`, not `some false`), so when the channel then
fails to open nothing of the claim holds: the rejection runs no service
code, no error message is surfaced, the session handle, both contexts and
the microphone stream stay allocated, the phase is Connecting (not Idle),
and a retried `startSession` is blocked by the already-active guard,
returning the state unchanged with only a warning. -/
theorem start_channel_failure_stuck :
    (stepStartOk initState).2.ret = some true ∧
    (stepStartOk initState).2.ret ≠ some false ∧
    stepConnectRejected (stepStartOk initState).1 = (stepStartOk initState).1 ∧
    (stepConnectRejected (stepStartOk initState).1).errorMsg = none ∧
    (stepConnectRejected (stepStartOk initState).1).sessionPromise = true ∧
    (stepConnectRejected (stepStartOk initState).1).inputAudioContext = true ∧
    (stepConnectRejected (stepStartOk initState).1).outputAudioContext = true ∧
    (stepConnectRejected (stepStartOk initState).1).mediaStream = true ∧
    (stepConnectRejected (stepStartOk initState).1).phase = Phase.connecting ∧
    Phase.connecting ≠ Phase.idle ∧
    (stepStartOk (stepConnectRejected (stepStartOk initState).1)).2.warned = true ∧
    (stepStartOk (stepConnectRejected (stepStartOk initState).1)).2.ret = none ∧
    (stepStartOk (stepConnectRejected (stepStartOk initState).1)).1 =
      stepConnectRejected (stepStartOk initState).1 := by
  refine ⟨rfl, by decide, rfl, rfl, rfl, rfl, rfl, rfl, rfl, by decide, rfl, rfl, rfl⟩

/-- Claim C9 (amended): when `startSession` fails fatally at a point that
reaches its catch branch — microphone permission denied or device
unavailable, the awaited failures before the channel handle is installed —
the error is surfaced (return value `false` and the error message set),
every partially allocated resource is released, no source is tracked, the
session is back in Idle, and a retried `startSession` passes the guard and
proceeds to Connecting. A channel-open failure does not reach the catch:
`startSession` has already returned `true` and the session stays allocated
with retries blocked until `stopSession` or a channel `onerror` runs. -/
theorem start_failure_recovers (s : LiveState) (errText : String)
    (h : s.sessionPromise = false) :
    (stepStartFail s errText).2.ret = some false ∧
    (stepStartFail s errText).1.errorMsg = some errText ∧
    (stepStartFail s errText).1.sessionPromise = false ∧
    (stepStartFail s errText).1.inputAudioContext = false ∧
    (stepStartFail s errText).1.outputAudioContext = false ∧
    (stepStartFail s errText).1.scriptProcessor = false ∧
    (stepStartFail s errText).1.mediaStreamSource = false ∧
    (stepStartFail s errText).1.mediaStream = false ∧
    (stepStartFail s errText).1.outputNode = false ∧
    (stepStartFail s errText).1.sources = [] ∧
    (stepStartFail s errText).1.phase = Phase.idle ∧
    (stepStartOk (stepStartFail s errText).1).2.ret = some true ∧
    (stepStartOk (stepStartFail s errText).1).1.phase = Phase.connecting := by
  simp [stepStartFail, stepStartOk, stopSession, stopSessionCleanup, h]

/-- Witness for `start_failure_recovers` on a fresh service. -/
theorem start_failure_recovers_witness :
    (stepStartFail initState "mic denied").2.ret = some false ∧
    (stepStartFail initState "mic denied").1.errorMsg = some "mic denied" ∧
    (stepStartFail initState "mic denied").1.sessionPromise = false ∧
    (stepStartFail initState "mic denied").1.inputAudioContext = false ∧
    (stepStartFail initState "mic denied").1.outputAudioContext = false ∧
    (stepStartFail initState "mic denied").1.scriptProcessor = false ∧
    (stepStartFail initState "mic denied").1.mediaStreamSource = false ∧
    (stepStartFail initState "mic denied").1.mediaStream = false ∧
    (stepStartFail initState "mic denied").1.outputNode = false ∧
    (stepStartFail initState "mic denied").1.sources = [] ∧
    (stepStartFail initState "mic denied").1.phase = Phase.idle ∧
    (stepStartOk (stepStartFail initState "mic denied").1).2.ret = some true ∧
    (stepStartOk (stepStartFail initState "mic denied").1).1.phase = Phase.connecting :=
  start_failure_recovers initState "mic denied" rfl

/-- Claim C6: `stopSession` is idempotent — from any reachable state,
stopping twice yields exactly the state of stopping once — and one stop
already leaves the session handle dropped, every device resource released,
no tracked source, and the session Closed. The model step is a total
function, so no call throws. -/
theorem stop_idempotent (s : LiveState) (hr : Reachable s) :
    (stepStop (stepStop s).1).1 = (stepStop s).1 ∧
    (stepStop s).1.sessionPromise = false ∧
    (stepStop s).1.inputAudioContext = false ∧
    (stepStop s).1.outputAudioContext = false ∧
    (stepStop s).1.scriptProcessor = false ∧
    (stepStop s).1.mediaStreamSource = false ∧
    (stepStop s).1.mediaStream = false ∧
    (stepStop s).1.outputNode = false ∧
    (stepStop s).1.sources = [] ∧
    (stepStop s).1.phase = Phase.closed := by
  obtain ⟨h1, h2, h3⟩ := reachable_inv s hr
  cases hsp : s.sessionPromise <;> cases hoc : s.outputAudioContext
  · simp [stepStop, stopSession, stopSessionCleanup, LiveState.mkClosed, hsp, hoc, h2 hoc]
  · simp [stepStop, stopSession, stopSessionCleanup, LiveState.mkClosed, hsp, hoc]
  · simp [stepStop, stopSession, stopSessionCleanup, LiveState.mkClosed, hsp, hoc, h2 hoc]
  · simp [stepStop, stopSession, stopSessionCleanup, LiveState.mkClosed, hsp, hoc]

/-- Witness for `stop_idempotent` on a fresh service. -/
theorem stop_idempotent_witness :
    (stepStop (stepStop initState).1).1 = (stepStop initState).1 ∧
    (stepStop initState).1.sessionPromise = false ∧
    (stepStop initState).1.inputAudioContext = false ∧
    (stepStop initState).1.outputAudioContext = false ∧
    (stepStop initState).1.scriptProcessor = false ∧
    (stepStop initState).1.mediaStreamSource = false ∧
    (stepStop initState).1.mediaStream = false ∧
    (stepStop initState).1.outputNode = false ∧
    (stepStop initState).1.sources = [] ∧
    (stepStop initState).1.phase = Phase.closed :=
  stop_idempotent initState Reachable.init

/-- Claim C7: in every reachable state, tracked playback units exist only
while the session is Active, and each transition to Closed (explicit stop,
channel error, channel close) calls `.stop()` on every tracked unit and
empties the active set — no playback unit survives session teardown. -/
theorem no_orphaned_playback (s : LiveState) (e : Event) (hr : Reachable s)
    (he : e = Event.stop ∨ e = Event.chanError ∨ e = Event.chanClose) :
    (s.sources ≠ [] → s.phase = Phase.active) ∧
    (step s e).1.phase = Phase.closed ∧
    (step s e).1.sources = [] ∧
    (step s e).2.stopped = s.sources := by
  obtain ⟨h1, h2, h3⟩ := reachable_inv s hr
  rcases he with rfl | rfl | rfl
  · exact ⟨h1, rfl, stopSession_sources s h2, stopSession_stopped s h2⟩
  · exact ⟨h1, rfl,
      stopSession_sources { s with
        errorMsg := some "Voice chat encountered an error. Please try again." } h2,
      stopSession_stopped { s with
        errorMsg := some "Voice chat encountered an error. Please try again." } h2⟩
  · exact ⟨h1, rfl, stopSessionCleanup_sources s h2, stopSessionCleanup_stopped s h2⟩

/-- Witness for `no_orphaned_playback` at the initial state under an
explicit stop. -/
theorem no_orphaned_playback_witness :
    (initState.sources ≠ [] → initState.phase = Phase.active) ∧
    (step initState Event.stop).1.phase = Phase.closed ∧
    (step initState Event.stop).1.sources = [] ∧
    (step initState Event.stop).2.stopped = initState.sources :=
  no_orphaned_playback initState Event.stop Reachable.init (Or.inl rfl)
